import Mathlib

/-!
The mutated load-generator client: request generators.

A shallow embedding of `src/client/gen_synthetic.cc` and
`src/client/gen_memcache.cc`: the response handlers (`recv_response`), the
service-time sampler (`gen_service_time`), the packet write of
`synthetic::_send_request`, and the request table and key selection of the
key-value generator.

Conventions.
* A thrown `runtime_error` is recorded in the `thrown` field of an `outcome`,
  next to the in-flight queue and the completion callbacks invoked up to the
  throw.
* `uint64_t` and `size_t` values are naturals, reduced modulo `2 ^ 64` where
  the source computes them.
* Addresses (`&req`, `&sock_`, `data`, `s`) are naturals.
-/

namespace Mutated

/-! ## Machine integers and time -/

/-- Modulus of `uint64_t` and `size_t`. -/
def U64 : Nat := 2 ^ 64

/-- Conversion of a signed tick count (`duration::count()`) to `uint64_t`. -/
def toU64 (d : Int) : Nat := (d % (2 ^ 64 : Int)).toNat

/-- Modelled from the spec: `generator::clock`, `generator::time_point` and
`generator::duration` are declared in a header that is not part of the
sources. The spec gives `queue_us = sent_timestamp − generation_timestamp`, so
a time point is an integer, the count of `generator::duration` units since the
clock's epoch, and `duration_cast<generator::duration>(delta).count()` keeps
the count of `delta`. -/
def duration_count (delta : Int) : Int := delta

/-! ## In-flight queue -/

/-- Modelled from the spec: `dequeue_one()` of the in-flight queue (its header is
not part of the sources): removes and returns the head record, and fails with
an underflow on an empty queue. -/
def dequeue_one {ρ : Type} : List ρ → Option (ρ × List ρ)
  | [] => none
  | r :: rest => some (r, rest)

/-- Modelled from the spec: `drop(k)` of the in-flight queue (its header is not
part of the sources): discards the head `k` records without invoking their
callbacks. -/
def drop {ρ : Type} (k : Nat) (q : List ρ) : List ρ := q.drop k

/-! ## Records, callbacks and outcomes -/

/-- One invocation of a `request_cb`: which callback, and its arguments
`(queue_us, service_us, wait_us, bytes, measure)`. The key-value generator
passes `(service_us, wait_us, measure)` only; there `queue_us` and `bytes` are
absent, recorded as `none`. -/
structure cb_call where
  cb : Nat
  queue_us : Option Nat
  service_us : Nat
  wait_us : Nat
  bytes : Option Nat
  measure : Bool
  deriving DecidableEq, Repr

/-- The `synreq` record of the synthetic generator. `addr` is the record's
address in the queue, which is its identity on the wire. -/
structure synreq where
  addr : Nat
  measure : Bool
  cb : Nat
  service_us : Nat
  start_ts : Int
  sent_ts : Int
  deriving DecidableEq, Repr

/-- The `memreq` record of the key-value generator. -/
structure memreq where
  addr : Nat
  measure : Bool
  cb : Nat
  start_ts : Int
  deriving DecidableEq, Repr

/-- What a handler leaves behind: the in-flight queue, the callbacks it
invoked (in order), and the exception it threw, if any. -/
structure outcome (ρ : Type) where
  requests : List ρ
  calls : List cb_call
  thrown : Option String

/-! ## `synthetic::recv_response` -/

/-- The handler `synthetic::recv_response(s, data, seg1, n, seg2, m, status)`.
`sock` is `&sock_`, `RESP` is `sizeof(resp_pkt)`, `now` is the reading of
`generator::clock::now()`, `requests` the in-flight queue. The segments
`seg1`, `seg2` are unused, as in the source. -/
def synthetic.recv_response (sock RESP : Nat) (now : Int)
    (requests : List synreq) (s data : Nat) (seg1 : List Nat) (n : Nat)
    (seg2 : List Nat) (m : Nat) (status : Int) : outcome synreq :=
  let _unused := (seg1, seg2)
  if sock ≠ s then
    ⟨requests, [], some "synth::recv_response: wrong socket in callback"⟩
  else if status ≠ 0 then
    ⟨drop 1 requests, [], none⟩
  else if (n + m) % U64 ≠ RESP then
    ⟨requests, [], some "synth::recv_response: unexpected packet size"⟩
  else
    match dequeue_one requests with
    | none => ⟨requests, [], some "underflow"⟩
    | some (req, rest) =>
      if data ≠ req.addr then
        ⟨rest, [], some "synth::recv_response: wrong response-request packet match"⟩
      else
        let delta := req.sent_ts - req.start_ts
        if delta ≤ 0 then
          ⟨rest, [], some "synthetic::recv_response: sent before it was generated"⟩
        else
          let queue_us := toU64 (duration_count delta)
          let delta := now - req.start_ts
          if delta ≤ 0 then
            ⟨rest, [], some "synthetic::recv_response: arrived before it was sent"⟩
          else
            let service_us := toU64 (duration_count delta)
            let wait_us :=
              if service_us > req.service_us then service_us - req.service_us else 0
            ⟨rest, [⟨req.cb, some queue_us, service_us, wait_us, some RESP, req.measure⟩], none⟩

/-! ## `memcache::recv_response` -/

/-- The handler `memcache::recv_response(s, data, seg1, n, seg2, m, status)`. -/
def memcache.recv_response (sock : Nat) (now : Int)
    (requests : List memreq) (s data : Nat) (seg1 : List Nat) (n : Nat)
    (seg2 : List Nat) (m : Nat) (status : Int) : outcome memreq :=
  let _unused := (seg1, seg2)
  if sock ≠ s then
    ⟨requests, [], some "memcache::recv_response: wrong socket in callback"⟩
  else if status ≠ 0 then
    ⟨drop 1 requests, [], none⟩
  else if (n + m) % U64 ≠ 24 then
    ⟨requests, [], some "memcache::recv_response: unexpected packet size"⟩
  else
    match dequeue_one requests with
    | none => ⟨requests, [], some "underflow"⟩
    | some (req, rest) =>
      if data ≠ req.addr then
        ⟨rest, [], some "memcache::recv_response: wrong response-request packet match"⟩
      else
        let delta := now - req.start_ts
        if delta ≤ 0 then
          ⟨rest, [], some "memcache::recv_response: sample arrived before it was sent"⟩
        else
          let service_us := toU64 (duration_count delta)
          ⟨rest, [⟨req.cb, none, service_us, 0, none, req.measure⟩], none⟩

/-! ## Wire fields the handlers receive -/

/-- Little-endian value of a list of bytes. -/
def le_value : List Nat → Nat
  | [] => 0
  | b :: bs => b + 256 * le_value bs

/-- Modelled from the spec: `resp_pkt` is declared in a header that is not part
of the sources. The tag embedded in a synthetic response packet is the 64-bit
request identity that opens the packet, in host byte order. -/
def resp_pkt_tag (bytes : List Nat) : Nat := le_value (bytes.take 8)

/-- Modelled from the spec: `MemcHeader` is declared in a header that is not
part of the sources. The spec lists the 24-byte header as type, command, key
length, extras length, data type, status, body length, opaque id, version,
multi-byte fields in network byte order: the status field is bytes 6 and 7. -/
def memc_header_status (bytes : List Nat) : Nat :=
  256 * bytes.getD 6 0 + bytes.getD 7 0

/-! ## `synthetic::gen_service_time` -/

/-- The `service_dist` selection of the configuration. -/
inductive service_dist where
  | FIXED
  | EXPONENTIAL
  | LOGNORMAL
  deriving DecidableEq, Repr

/-- Conversion of an integral `double` to the `uint64_t` return value. The
conversion is defined when the value is representable; otherwise the source's
behaviour is undefined, which is `none` here. -/
def double_to_u64 (x : Int) : Option Nat :=
  if 0 ≤ x ∧ x < 2 ^ 64 then some x.toNat else none

/-- The sampler `synthetic::gen_service_time`. A finite `double` is a rational,
and `ceil` is exact on it. `service_us` is `cfg_.service_us`; `exp_draw` and
`lognorm_draw` are the values `service_dist_exp(rand_)` and
`service_dist_lognorm(rand_)` return in the current state of the random
source. -/
def synthetic.gen_service_time (dist : service_dist) (service_us exp_draw lognorm_draw : ℚ) :
    Option Nat :=
  if dist = service_dist.FIXED then
    double_to_u64 ⌈service_us⌉
  else if dist = service_dist.EXPONENTIAL then
    double_to_u64 ⌈exp_draw⌉
  else
    double_to_u64 ⌈lognorm_draw⌉

/-! ## Packet copy of `synthetic::_send_request` -/

/-- The `req_pkt` of the synthetic protocol. -/
structure req_pkt where
  tag : Nat
  nr : Nat
  delays : List Nat
  deriving DecidableEq, Repr

/-- The `len` little-endian bytes of `v`. -/
def le_bytes : Nat → Nat → List Nat
  | 0, _ => []
  | len + 1, v => v % 256 :: le_bytes len (v / 256)

/-- Modelled from the spec: `req_pkt` is declared in a header that is not part
of the sources. The spec gives the packet as a 64-bit tag, an integer count and
an array of microsecond delays, sized for one delay in the default
configuration: three 8-byte words in host byte order, 24 bytes. -/
def req_pkt_bytes (p : req_pkt) : List Nat :=
  le_bytes 8 p.tag ++ le_bytes 8 p.nr ++ le_bytes 8 (p.delays.headD 0)

/-- The bytes `memcpy` reads: `len` bytes of memory from address `addr`. -/
def read_bytes (mem : Nat → Nat) (addr len : Nat) : List Nat :=
  (List.range len).map fun i => mem (addr + i)

/-- Memory after an object with bytes `bs` is stored at address `addr`. -/
def store_bytes (mem : Nat → Nat) (addr : Nat) (bs : List Nat) : Nat → Nat :=
  fun a => if addr ≤ a ∧ a < addr + bs.length then bs.getD (a - addr) 0 else mem a

/-- The packet write of `synthetic::_send_request`: the bytes that reach the
first and the second span of the granted write region. `layout` is the object
representation of a `req_pkt` and `n` its `sizeof`; `n1` is the length of the
first span as `write_prepare` leaves it; `req_addr` is `&req` and `service_us`
the record's target service time. In the fragmented branch the local `pkt`
lives at address `pkt_addr` of the memory `stack`, and `&pkt + n1` is pointer
arithmetic on a `req_pkt *`: it advances by `n1 * sizeof(req_pkt)` bytes. -/
def synthetic._send_request (layout : req_pkt → List Nat) (n : Nat)
    (stack : Nat → Nat) (pkt_addr req_addr service_us n1 : Nat) : List Nat × List Nat :=
  if n1 = n then
    (layout ⟨req_addr, 1, [service_us]⟩, [])
  else
    let mem := store_bytes stack pkt_addr (layout ⟨req_addr, 1, [service_us]⟩)
    (read_bytes mem pkt_addr n1, read_bytes mem (pkt_addr + n1 * n) (n - n1))

/-! ## Key-value generator: precomputed requests and key selection -/

/-- Size of the key-value protocol header, `MEMC_HEADER_SIZE`. -/
def MEMC_HEADER_SIZE : Nat := 24

/-- Network byte order of a 16-bit value (`htons`). -/
def htons_bytes (v : Nat) : List Nat := [v / 256 % 256, v % 256]

/-- Network byte order of a 32-bit value (`htonl`). -/
def htonl_bytes (v : Nat) : List Nat :=
  [v / 16777216 % 256, v / 65536 % 256, v / 256 % 256, v % 256]

/-- Modelled from the spec: the object representation of the `MemcHeader` that
`create_get_req` fills in (the struct and the constants `MEMC_REQUEST`,
`MEMC_CMD_GET`, `MEMC_OK` are declared in a header that is not part of the
sources): type, command, key length, extras length, data type, status, body
length, opaque id, version, 24 bytes. -/
def get_header_bytes (MEMC_REQUEST MEMC_CMD_GET MEMC_OK KEYLEN : Nat) : List Nat :=
  [MEMC_REQUEST % 256, MEMC_CMD_GET % 256] ++ htons_bytes KEYLEN ++ [0, 0] ++
    htons_bytes MEMC_OK ++ htonl_bytes KEYLEN ++ le_bytes 4 0 ++ le_bytes 8 0

/-- The characters of `"key-%026" PRIu64` for `id`: `key-` and the decimal
digits of `id`, zero-padded to 26. -/
def key_text (id : Nat) : List Nat :=
  let digits := (Nat.toDigits 10 id).map Char.toNat
  [107, 101, 121, 45] ++ List.replicate (26 - digits.length) 48 ++ digits

/-- The bytes `snprintf(dst, size, fmt, ...)` stores for the formatted text
`text`: at most `size - 1` characters and a terminating NUL. -/
def snprintf_bytes (size : Nat) (text : List Nat) : List Nat :=
  if size = 0 then [] else text.take (size - 1) ++ [0]

/-- Buffer `buf` after `bs` is written at offset `off`. -/
def write_at (buf : List Nat) (off : Nat) (bs : List Nat) : List Nat :=
  buf.take off ++ bs ++ buf.drop (off + bs.length)

/-- The request builder `create_get_req(buf, id)`: the buffer after the header
is copied to its start and the key text is printed behind it. -/
def create_get_req (MEMC_REQUEST MEMC_CMD_GET MEMC_OK KEYLEN : Nat)
    (buf : List Nat) (id : Nat) : List Nat :=
  let header := get_header_bytes MEMC_REQUEST MEMC_CMD_GET MEMC_OK KEYLEN
  let buf := write_at buf 0 (header.take MEMC_HEADER_SIZE)
  write_at buf MEMC_HEADER_SIZE (snprintf_bytes KEYLEN (key_text id))

/-- The table `keys_` after the constructor's loop
`for (i = 1; i <= KEYS; i++) create_get_req(keys_[i - 1], i)`; `init j` is the
content of `keys_[j]` before the loop. -/
def keys_table (MEMC_REQUEST MEMC_CMD_GET MEMC_OK KEYLEN KEYS : Nat)
    (init : Nat → List Nat) : List (List Nat) :=
  (List.range KEYS).map fun j =>
    create_get_req MEMC_REQUEST MEMC_CMD_GET MEMC_OK KEYLEN (init j) (j + 1)

/-- State of the key-value generator: in-flight queue and sequence counter. -/
structure memcache_state where
  requests : List memreq
  seqid : Nat

/-- What one `memcache::_send_request` does besides updating the state: the
index into `keys_` it selected and the bytes copied to the two write spans. -/
structure sent_key where
  index : Nat
  span1 : List Nat
  span2 : List Nat

/-- The call `memcache::_send_request(measure, cb)`. `CTR` is the modulus of the
counter `seqid_`, `KEYREQ` the request size, `keys` the table `keys_`; `addr`
and `start_ts` are the address and start timestamp of the record
`queue_emplace` constructs, `n1` the length of the first write span. -/
def memcache._send_request (CTR KEYS KEYREQ : Nat) (keys : List (List Nat))
    (st : memcache_state) (measure : Bool) (cb addr : Nat) (start_ts : Int)
    (n1 : Nat) : memcache_state × sent_key :=
  let requests := st.requests ++ [⟨addr, measure, cb, start_ts⟩]
  let index := st.seqid % KEYS
  let key := keys.getD index []
  let seqid := (st.seqid + 1) % CTR
  let n := KEYREQ
  let span1 := key.take n1
  let span2 := if n ≠ n1 then (key.drop n1).take (n - n1) else []
  (⟨requests, seqid⟩, ⟨index, span1, span2⟩)

/-- Arguments of one `memcache::_send_request` call. -/
structure send_args where
  measure : Bool
  cb : Nat
  addr : Nat
  start_ts : Int
  n1 : Nat

/-- A sequence of `memcache::_send_request` calls: the final state and what
each call sent, in call order. -/
def memcache_send_requests (CTR KEYS KEYREQ : Nat) (keys : List (List Nat)) :
    memcache_state → List send_args → memcache_state × List sent_key
  | st, [] => (st, [])
  | st, a :: rest =>
    let r := memcache._send_request CTR KEYS KEYREQ keys st a.measure a.cb a.addr a.start_ts a.n1
    let rs := memcache_send_requests CTR KEYS KEYREQ keys r.1 rest
    (rs.1, r.2 :: rs.2)

/-! ## Helper lemmas -/

theorem toU64_of_pos_lt {d : Int} (h0 : 0 < d) (h1 : d < 2 ^ 63) :
    toU64 d = d.toNat := by
  unfold toU64
  have h2 : d % (2 ^ 64 : Int) = d := Int.emod_eq_of_lt (by omega) (by omega)
  rw [h2]

theorem toU64_pos {d : Int} (h0 : 0 < d) (h1 : d < 2 ^ 63) : 0 < toU64 d := by
  rw [toU64_of_pos_lt h0 h1]; omega

theorem mod_U64_of_lt {k : Nat} (h : k < U64) : k % U64 = k := Nat.mod_eq_of_lt h

/-- The synthetic handler on a well-framed, matched response with positive
queue and service deltas. -/
theorem synthetic_recv_response_ok (sock RESP : Nat) (now : Int) (req : synreq)
    (rest : List synreq) (seg1 seg2 : List Nat) (n m : Nat)
    (hsize : (n + m) % U64 = RESP)
    (hsent : 0 < req.sent_ts - req.start_ts) (hnow : 0 < now - req.start_ts) :
    synthetic.recv_response sock RESP now (req :: rest) sock req.addr seg1 n seg2 m 0 =
      ⟨rest, [⟨req.cb, some (toU64 (req.sent_ts - req.start_ts)),
        toU64 (now - req.start_ts),
        if toU64 (now - req.start_ts) > req.service_us
          then toU64 (now - req.start_ts) - req.service_us else 0,
        some RESP, req.measure⟩], none⟩ := by
  have hd1 : ¬ (req.sent_ts - req.start_ts ≤ 0) := by omega
  have hd2 : ¬ (now - req.start_ts ≤ 0) := by omega
  simp [synthetic.recv_response, dequeue_one, duration_count, hsize, hd1, hd2]

/-- The synthetic handler on a well-framed, matched response with a
non-positive queue or service delta. -/
theorem synthetic_recv_response_anomaly (sock RESP : Nat) (now : Int) (req : synreq)
    (rest : List synreq) (seg1 seg2 : List Nat) (n m : Nat)
    (hsize : (n + m) % U64 = RESP)
    (hbad : req.sent_ts - req.start_ts ≤ 0 ∨ now - req.start_ts ≤ 0) :
    let r := synthetic.recv_response sock RESP now (req :: rest) sock req.addr seg1 n seg2 m 0
    r.thrown ≠ none ∧ r.calls = [] := by
  by_cases hd1 : req.sent_ts - req.start_ts ≤ 0
  · simp [synthetic.recv_response, dequeue_one, duration_count, hsize, hd1]
  · have hd2 : now - req.start_ts ≤ 0 := by tauto
    simp [synthetic.recv_response, dequeue_one, duration_count, hsize, hd1, hd2]

/-- The key-value handler on a well-framed, matched response with a positive
service delta. -/
theorem memcache_recv_response_ok (sock : Nat) (now : Int) (req : memreq)
    (rest : List memreq) (seg1 seg2 : List Nat) (n m : Nat)
    (hsize : (n + m) % U64 = 24) (hnow : 0 < now - req.start_ts) :
    memcache.recv_response sock now (req :: rest) sock req.addr seg1 n seg2 m 0 =
      ⟨rest, [⟨req.cb, none, toU64 (now - req.start_ts), 0, none, req.measure⟩], none⟩ := by
  have hd2 : ¬ (now - req.start_ts ≤ 0) := by omega
  simp [memcache.recv_response, dequeue_one, duration_count, hsize, hd2]

/-- The key-value handler on a well-framed, matched response with a
non-positive service delta. -/
theorem memcache_recv_response_anomaly (sock : Nat) (now : Int) (req : memreq)
    (rest : List memreq) (seg1 seg2 : List Nat) (n m : Nat)
    (hsize : (n + m) % U64 = 24) (hbad : now - req.start_ts ≤ 0) :
    let r := memcache.recv_response sock now (req :: rest) sock req.addr seg1 n seg2 m 0
    r.thrown ≠ none ∧ r.calls = [] := by
  simp [memcache.recv_response, dequeue_one, duration_count, hsize, hbad]

/-- The handlers never read the response bytes. -/
theorem synthetic_recv_response_ignores_bytes (sock RESP : Nat) (now : Int)
    (requests : List synreq) (s data : Nat) (seg1 seg2 seg1' seg2' : List Nat)
    (n m : Nat) (status : Int) :
    synthetic.recv_response sock RESP now requests s data seg1 n seg2 m status =
      synthetic.recv_response sock RESP now requests s data seg1' n seg2' m status := rfl

/-- The key-value handler never reads the response bytes. -/
theorem memcache_recv_response_ignores_bytes (sock : Nat) (now : Int)
    (requests : List memreq) (s data : Nat) (seg1 seg2 seg1' seg2' : List Nat)
    (n m : Nat) (status : Int) :
    memcache.recv_response sock now requests s data seg1 n seg2 m status =
      memcache.recv_response sock now requests s data seg1' n seg2' m status := rfl

/-! ## Latency decomposition -/

/-- C1: a synthetic response with status 0, the response packet's size and
completion data naming the head record, whose sent timestamp `Ts` and whose
arrival `now` both follow its generation timestamp `T0`, removes the head
record and invokes the completion callback exactly once, with
`queue_us = Ts - T0`, `service_us = now - T0`,
`wait_us = max 0 (service_us - D)` for the stored target service time `D`, the
size of the response packet and the stored measure flag; nothing is thrown. -/
theorem synthetic_recv_response_decomposition
    (sock RESP : Nat) (now : Int) (req : synreq) (rest : List synreq)
    (seg1 seg2 : List Nat) (n m : Nat)
    (hsize : n + m = RESP) (hfit : n + m < U64)
    (hsent : req.start_ts < req.sent_ts) (hnow : req.start_ts < now)
    (hsentrep : req.sent_ts - req.start_ts < 2 ^ 63)
    (hnowrep : now - req.start_ts < 2 ^ 63) :
    ∃ queue_us service_us wait_us : Nat,
      synthetic.recv_response sock RESP now (req :: rest) sock req.addr seg1 n seg2 m 0 =
        ⟨rest, [⟨req.cb, some queue_us, service_us, wait_us, some RESP, req.measure⟩], none⟩ ∧
      (queue_us : Int) = req.sent_ts - req.start_ts ∧
      (service_us : Int) = now - req.start_ts ∧
      (wait_us : Int) = max 0 ((service_us : Int) - req.service_us) := by
  have hq : toU64 (req.sent_ts - req.start_ts) = (req.sent_ts - req.start_ts).toNat :=
    toU64_of_pos_lt (by omega) hsentrep
  have hs : toU64 (now - req.start_ts) = (now - req.start_ts).toNat :=
    toU64_of_pos_lt (by omega) hnowrep
  have hmod : (n + m) % U64 = RESP := by rw [mod_U64_of_lt hfit]; exact hsize
  refine ⟨_, _, _, synthetic_recv_response_ok sock RESP now req rest seg1 seg2 n m hmod
    (by omega) (by omega), ?_, ?_, ?_⟩
  · rw [hq]; omega
  · rw [hs]; omega
  · rw [hs]
    split <;> omega

/-- The spec's example for C1: generation at `T0 = 1000`, sent at `T0 + 5`,
arrival at `T0 + 42`, target service time `30` give `queue_us = 5`,
`service_us = 42`, `wait_us = 12`. -/
theorem synthetic_recv_response_decomposition_witness :
    synthetic.recv_response 1 8 1042 [⟨7, true, 3, 30, 1000, 1005⟩] 1 7 [] 8 [] 0 0 =
      ⟨[], [⟨3, some 5, 42, 12, some 8, true⟩], none⟩ := by
  obtain ⟨q, sv, w, h, hq, hs, hw⟩ :=
    synthetic_recv_response_decomposition 1 8 1042 ⟨7, true, 3, 30, 1000, 1005⟩ [] [] [] 8 0
      (by decide) (by decide) (by decide) (by decide) (by decide) (by decide)
  have hq5 : q = 5 := by simp at hq; omega
  have hs42 : sv = 42 := by simp at hs; omega
  have hw12 : w = 12 := by subst hs42; simp at hw; omega
  subst hq5 hs42 hw12
  exact h

/-! ## Transport errors -/

/-- C2: a response delivered with a non-zero I/O status, whatever its lengths
`n` and `m`, its bytes and its completion data, removes exactly the head record
from the in-flight queue, invokes no completion callback and throws nothing, in
the synthetic and in the key-value handler. -/
theorem recv_response_error_drops_head
    (sock RESP : Nat) (now : Int) (data : Nat) (seg1 seg2 : List Nat) (n m : Nat)
    (status : Int) (hstatus : status ≠ 0)
    (sreq : synreq) (srest : List synreq) (mreq : memreq) (mrest : List memreq) :
    synthetic.recv_response sock RESP now (sreq :: srest) sock data seg1 n seg2 m status =
        ⟨srest, [], none⟩ ∧
    memcache.recv_response sock now (mreq :: mrest) sock data seg1 n seg2 m status =
        ⟨mrest, [], none⟩ := by
  constructor
  · simp [synthetic.recv_response, drop, hstatus]
  · simp [memcache.recv_response, drop, hstatus]

/-- An error status with a wrong total size (3 bytes) on two-record queues. -/
theorem recv_response_error_drops_head_witness :
    ((-104 : Int) ≠ 0) ∧
    synthetic.recv_response 1 8 50 [⟨7, true, 3, 30, 10, 15⟩, ⟨8, false, 3, 20, 11, 16⟩]
        1 7 [1, 2] 2 [3] 1 (-104) = ⟨[⟨8, false, 3, 20, 11, 16⟩], [], none⟩ ∧
    memcache.recv_response 1 50 [⟨7, true, 3, 10⟩, ⟨8, false, 3, 11⟩]
        1 7 [1, 2] 2 [3] 1 (-104) = ⟨[⟨8, false, 3, 11⟩], [], none⟩ :=
  ⟨by decide, recv_response_error_drops_head 1 8 50 7 [1, 2] [3] 2 1 (-104) (by decide)
    ⟨7, true, 3, 30, 10, 15⟩ [⟨8, false, 3, 20, 11, 16⟩] ⟨7, true, 3, 10⟩ [⟨8, false, 3, 11⟩]⟩

/-- C3, as stated, fails: with two records in flight, a transport error leaves
the second record in the queue, in both handlers. -/
theorem recv_response_error_keeps_tail :
    (synthetic.recv_response 1 8 50 [⟨7, true, 3, 30, 10, 15⟩, ⟨8, false, 3, 20, 11, 16⟩]
        1 7 [] 0 [] 0 (-104)).requests ≠ [] ∧
    (memcache.recv_response 1 50 [⟨7, true, 3, 10⟩, ⟨8, false, 3, 11⟩]
        1 7 [] 0 [] 0 (-104)).requests ≠ [] := by
  constructor <;> simp [synthetic.recv_response, memcache.recv_response, drop]

/-- C3, amended: a transport error drops the head record only. With `k ≥ 1`
records in flight, the `k - 1` records behind the head stay queued, in order,
so the queue is empty afterwards exactly when `k = 1`. -/
theorem recv_response_error_drops_one
    (sock RESP : Nat) (now : Int) (data : Nat) (seg1 seg2 : List Nat) (n m : Nat)
    (status : Int) (hstatus : status ≠ 0)
    (sq : List synreq) (mq : List memreq) (hs : 1 ≤ sq.length) (hm : 1 ≤ mq.length) :
    let rs := synthetic.recv_response sock RESP now sq sock data seg1 n seg2 m status
    let rm := memcache.recv_response sock now mq sock data seg1 n seg2 m status
    (rs.requests = sq.tail ∧ rs.requests.length = sq.length - 1 ∧
      (rs.requests = [] ↔ sq.length = 1)) ∧
    (rm.requests = mq.tail ∧ rm.requests.length = mq.length - 1 ∧
      (rm.requests = [] ↔ mq.length = 1)) := by
  constructor
  · cases sq with
    | nil => simp at hs
    | cons r rest =>
      simp [synthetic.recv_response, drop, hstatus]
  · cases mq with
    | nil => simp at hm
    | cons r rest =>
      simp [memcache.recv_response, drop, hstatus]

/-- Three records in flight: two remain after a transport error. -/
theorem recv_response_error_drops_one_witness :
    (synthetic.recv_response 1 8 50
        [⟨7, true, 3, 30, 10, 15⟩, ⟨8, false, 3, 20, 11, 16⟩, ⟨9, false, 3, 20, 12, 17⟩]
        1 7 [] 0 [] 0 (-104)).requests.length = 2 ∧
    (memcache.recv_response 1 50 [⟨7, true, 3, 10⟩, ⟨8, false, 3, 11⟩, ⟨9, false, 3, 12⟩]
        1 7 [] 0 [] 0 (-104)).requests.length = 2 :=
  have h := recv_response_error_drops_one 1 8 50 7 [] [] 0 0 (-104) (by decide)
    [⟨7, true, 3, 30, 10, 15⟩, ⟨8, false, 3, 20, 11, 16⟩, ⟨9, false, 3, 20, 12, 17⟩]
    [⟨7, true, 3, 10⟩, ⟨8, false, 3, 11⟩, ⟨9, false, 3, 12⟩] (by decide) (by decide)
  ⟨h.1.2.1, h.2.2.1⟩

/-! ## Timing anomalies -/

/-- Every callback the synthetic handler invokes carries positive `service_us`
and `queue_us`, when the head record's deltas fit the signed 64-bit tick
count. -/
theorem synthetic_recv_response_calls_pos (sock RESP : Nat) (now : Int)
    (requests : List synreq) (s data : Nat) (seg1 seg2 : List Nat) (n m : Nat)
    (status : Int)
    (hrep : ∀ req ∈ requests.head?,
      req.sent_ts - req.start_ts < 2 ^ 63 ∧ now - req.start_ts < 2 ^ 63) :
    ∀ c ∈ (synthetic.recv_response sock RESP now requests s data seg1 n seg2 m status).calls,
      0 < c.service_us ∧ ∃ q, c.queue_us = some q ∧ 0 < q := by
  intro c hc
  unfold synthetic.recv_response at hc
  simp only [] at hc
  split at hc
  · simp at hc
  split at hc
  · simp at hc
  split at hc
  · simp at hc
  cases requests with
  | nil => simp [dequeue_one] at hc
  | cons req rest =>
    have hb := hrep req (by simp)
    simp only [dequeue_one] at hc
    split at hc
    · simp at hc
    split at hc
    · simp at hc
    split at hc
    · simp at hc
    rename_i h1 h2
    simp only [List.mem_singleton] at hc
    subst hc
    simp only [duration_count] at *
    exact ⟨toU64_pos (by omega) hb.2, _, rfl, toU64_pos (by omega) hb.1⟩

/-- Every callback the key-value handler invokes carries positive
`service_us`, when the head record's delta fits the signed 64-bit tick
count. -/
theorem memcache_recv_response_calls_pos (sock : Nat) (now : Int)
    (requests : List memreq) (s data : Nat) (seg1 seg2 : List Nat) (n m : Nat)
    (status : Int)
    (hrep : ∀ req ∈ requests.head?, now - req.start_ts < 2 ^ 63) :
    ∀ c ∈ (memcache.recv_response sock now requests s data seg1 n seg2 m status).calls,
      0 < c.service_us := by
  intro c hc
  unfold memcache.recv_response at hc
  simp only [] at hc
  split at hc
  · simp at hc
  split at hc
  · simp at hc
  split at hc
  · simp at hc
  cases requests with
  | nil => simp [dequeue_one] at hc
  | cons req rest =>
    have hb := hrep req (by simp)
    simp only [dequeue_one] at hc
    split at hc
    · simp at hc
    split at hc
    · simp at hc
    simp only [List.mem_singleton] at hc
    subst hc
    simp only [duration_count] at *
    exact toU64_pos (by omega) hb

/-- C4: on a response with status 0, the right size and completion data naming
the head record, the synthetic handler throws without invoking the callback
exactly when `sent_ts - start_ts ≤ 0` or `now - start_ts ≤ 0`, and the
key-value handler exactly when `now - start_ts ≤ 0`. Consequently every
`service_us` (and every synthetic `queue_us`) a handler passes to a completion
callback, on any response, is strictly positive. -/
theorem recv_response_timing_anomaly_iff
    (sock RESP : Nat) (now : Int) (seg1 seg2 : List Nat) (n m n' m' : Nat)
    (sreq : synreq) (srest : List synreq) (mreq : memreq) (mrest : List memreq)
    (hfit : n + m < U64) (hsize : n + m = RESP) (hsize' : n' + m' = 24)
    (hsrep : sreq.sent_ts - sreq.start_ts < 2 ^ 63 ∧ now - sreq.start_ts < 2 ^ 63)
    (hmrep : now - mreq.start_ts < 2 ^ 63) :
    (((synthetic.recv_response sock RESP now (sreq :: srest) sock sreq.addr
          seg1 n seg2 m 0).thrown ≠ none ∧
        (synthetic.recv_response sock RESP now (sreq :: srest) sock sreq.addr
          seg1 n seg2 m 0).calls = []) ↔
      (sreq.sent_ts - sreq.start_ts ≤ 0 ∨ now - sreq.start_ts ≤ 0)) ∧
    (((memcache.recv_response sock now (mreq :: mrest) sock mreq.addr
          seg1 n' seg2 m' 0).thrown ≠ none ∧
        (memcache.recv_response sock now (mreq :: mrest) sock mreq.addr
          seg1 n' seg2 m' 0).calls = []) ↔
      now - mreq.start_ts ≤ 0) ∧
    (∀ (s data k l : Nat) (status : Int),
      ∀ c ∈ (synthetic.recv_response sock RESP now (sreq :: srest) s data
          seg1 k seg2 l status).calls,
        0 < c.service_us ∧ ∃ q, c.queue_us = some q ∧ 0 < q) ∧
    (∀ (s data k l : Nat) (status : Int),
      ∀ c ∈ (memcache.recv_response sock now (mreq :: mrest) s data
          seg1 k seg2 l status).calls,
        0 < c.service_us) := by
  refine ⟨?_, ?_, ?_, ?_⟩
  · have hmod : (n + m) % U64 = RESP := by rw [mod_U64_of_lt hfit]; exact hsize
    constructor
    · intro h
      by_contra hgood
      have hok := synthetic_recv_response_ok sock RESP now sreq srest seg1 seg2 n m hmod
        (by omega) (by omega)
      rw [hok] at h
      exact h.1 rfl
    · intro hbad
      exact synthetic_recv_response_anomaly sock RESP now sreq srest seg1 seg2 n m hmod hbad
  · have hmod : (n' + m') % U64 = 24 := by
      rw [hsize']; decide
    constructor
    · intro h
      by_contra hgood
      have hok := memcache_recv_response_ok sock now mreq mrest seg1 seg2 n' m' hmod
        (by omega)
      rw [hok] at h
      exact h.1 rfl
    · intro hbad
      exact memcache_recv_response_anomaly sock now mreq mrest seg1 seg2 n' m' hmod hbad
  · intro s data k l status
    exact synthetic_recv_response_calls_pos sock RESP now (sreq :: srest) s data seg1 seg2 k l
      status (by intro req hreq; simp at hreq; subst hreq; exact hsrep)
  · intro s data k l status
    exact memcache_recv_response_calls_pos sock now (mreq :: mrest) s data seg1 seg2 k l
      status (by intro req hreq; simp at hreq; subst hreq; exact hmrep)

/-- A record whose sent timestamp was never stamped (it is still the epoch)
and a key-value response that arrives at its own start timestamp: both are
thrown, neither is reported. -/
theorem recv_response_timing_anomaly_iff_witness :
    ((synthetic.recv_response 1 8 1042 [⟨7, true, 3, 30, 1000, 0⟩] 1 7 [] 8 [] 0 0).thrown
        ≠ none ∧
      (synthetic.recv_response 1 8 1042 [⟨7, true, 3, 30, 1000, 0⟩] 1 7 [] 8 [] 0 0).calls
        = []) ∧
    ((memcache.recv_response 1 1042 [⟨7, true, 3, 1042⟩] 1 7 [] 24 [] 0 0).thrown ≠ none ∧
      (memcache.recv_response 1 1042 [⟨7, true, 3, 1042⟩] 1 7 [] 24 [] 0 0).calls = []) :=
  have h := recv_response_timing_anomaly_iff 1 8 1042 [] [] 8 0 24 0
    ⟨7, true, 3, 30, 1000, 0⟩ [] ⟨7, true, 3, 1042⟩ [] (by decide) (by decide) (by decide)
    (by decide) (by decide)
  ⟨h.1.2 (Or.inl (by decide)), h.2.1.2 (by decide)⟩

/-! ## Framing errors -/

/-- C5: a response delivered with status 0 whose total length `n + m` differs
from the fixed response size (`sizeof(resp_pkt)` for the synthetic generator,
24 for the key-value generator) makes the handler throw; no completion
callback is invoked and the in-flight queue is left as it was. -/
theorem recv_response_framing_error
    (sock RESP : Nat) (now : Int) (data : Nat) (seg1 seg2 : List Nat) (n m n' m' : Nat)
    (sq : List synreq) (mq : List memreq)
    (hfit : n + m < U64) (hne : n + m ≠ RESP)
    (hfit' : n' + m' < U64) (hne' : n' + m' ≠ 24) :
    ((synthetic.recv_response sock RESP now sq sock data seg1 n seg2 m 0).thrown =
        some "synth::recv_response: unexpected packet size" ∧
      (synthetic.recv_response sock RESP now sq sock data seg1 n seg2 m 0).calls = [] ∧
      (synthetic.recv_response sock RESP now sq sock data seg1 n seg2 m 0).requests = sq) ∧
    ((memcache.recv_response sock now mq sock data seg1 n' seg2 m' 0).thrown =
        some "memcache::recv_response: unexpected packet size" ∧
      (memcache.recv_response sock now mq sock data seg1 n' seg2 m' 0).calls = [] ∧
      (memcache.recv_response sock now mq sock data seg1 n' seg2 m' 0).requests = mq) := by
  have hmod : (n + m) % U64 = n + m := mod_U64_of_lt hfit
  have hmod' : (n' + m') % U64 = n' + m' := mod_U64_of_lt hfit'
  constructor
  · simp [synthetic.recv_response, hmod, hne]
  · simp [memcache.recv_response, hmod', hne']

/-- A short read of 5 bytes against an 8-byte and a 24-byte response, one
record in flight. -/
theorem recv_response_framing_error_witness :
    ((synthetic.recv_response 1 8 50 [⟨7, true, 3, 30, 10, 15⟩] 1 7
          [1, 2, 3] 3 [4, 5] 2 0).thrown =
        some "synth::recv_response: unexpected packet size" ∧
      (synthetic.recv_response 1 8 50 [⟨7, true, 3, 30, 10, 15⟩] 1 7
          [1, 2, 3] 3 [4, 5] 2 0).calls = [] ∧
      (synthetic.recv_response 1 8 50 [⟨7, true, 3, 30, 10, 15⟩] 1 7
          [1, 2, 3] 3 [4, 5] 2 0).requests = [⟨7, true, 3, 30, 10, 15⟩]) ∧
    ((memcache.recv_response 1 50 [⟨7, true, 3, 10⟩] 1 7 [1, 2, 3] 3 [4, 5] 2 0).thrown =
        some "memcache::recv_response: unexpected packet size" ∧
      (memcache.recv_response 1 50 [⟨7, true, 3, 10⟩] 1 7 [1, 2, 3] 3 [4, 5] 2 0).calls = [] ∧
      (memcache.recv_response 1 50 [⟨7, true, 3, 10⟩] 1 7 [1, 2, 3] 3 [4, 5] 2 0).requests =
        [⟨7, true, 3, 10⟩]) :=
  recv_response_framing_error 1 8 50 7 [1, 2, 3] [4, 5] 3 2 3 2
    [⟨7, true, 3, 30, 10, 15⟩] [⟨7, true, 3, 10⟩] (by decide) (by decide) (by decide)
    (by decide)

/-! ## Identity of the response -/

/-- C6, as stated, fails: an 8-byte response with status 0 whose embedded tag
is 99, delivered with completion data 7 while the head record is record 7, is
accepted: nothing is thrown and the completion callback is invoked. -/
theorem synthetic_recv_response_tag_unchecked :
    resp_pkt_tag ([99, 0, 0, 0, 0] ++ [0, 0, 0]) ≠ 7 ∧
    synthetic.recv_response 1 8 1042 [⟨7, true, 3, 30, 1000, 1005⟩] 1 7
        [99, 0, 0, 0, 0] 5 [0, 0, 0] 3 0 =
      ⟨[], [⟨3, some 5, 42, 12, some 8, true⟩], none⟩ := by
  constructor
  · decide
  · rfl

/-- C6, amended: on a synthetic response with status 0 and the right size, if
the completion data delivered with the response does not identify the record
at the head of the in-flight queue, the handler throws a protocol error and
invokes no completion callback. The bytes of the response are not read. -/
theorem synthetic_recv_response_data_mismatch
    (sock RESP : Nat) (now : Int) (data : Nat) (seg1 seg2 : List Nat) (n m : Nat)
    (req : synreq) (rest : List synreq)
    (hfit : n + m < U64) (hsize : n + m = RESP) (hdata : data ≠ req.addr) :
    (synthetic.recv_response sock RESP now (req :: rest) sock data seg1 n seg2 m 0).thrown =
      some "synth::recv_response: wrong response-request packet match" ∧
    (synthetic.recv_response sock RESP now (req :: rest) sock data seg1 n seg2 m 0).calls =
      [] := by
  have hmod : (n + m) % U64 = RESP := by rw [mod_U64_of_lt hfit]; exact hsize
  simp [synthetic.recv_response, dequeue_one, hmod, hdata]

/-- Completion data 8 against head record 7. -/
theorem synthetic_recv_response_data_mismatch_witness :
    (synthetic.recv_response 1 8 1042 [⟨7, true, 3, 30, 1000, 1005⟩] 1 8
        [7, 0, 0, 0, 0] 5 [0, 0, 0] 3 0).thrown =
      some "synth::recv_response: wrong response-request packet match" ∧
    (synthetic.recv_response 1 8 1042 [⟨7, true, 3, 30, 1000, 1005⟩] 1 8
        [7, 0, 0, 0, 0] 5 [0, 0, 0] 3 0).calls = [] :=
  synthetic_recv_response_data_mismatch 1 8 1042 8 [7, 0, 0, 0, 0] [0, 0, 0] 5 3
    ⟨7, true, 3, 30, 1000, 1005⟩ [] (by decide) (by decide) (by decide)

/-! ## Server-side status of a key-value response -/

/-- C7, as stated, fails: a 24-byte response with I/O status 0 whose header
status field is 1 is reported like any other: the completion callback is
invoked with its latency. -/
theorem memcache_recv_response_status_unchecked :
    memc_header_status ([129, 0, 0, 0, 0, 0, 0, 1] ++ List.replicate 16 0) ≠ 0 ∧
    memcache.recv_response 1 1042 [⟨7, true, 3, 1000⟩, ⟨8, true, 3, 1001⟩] 1 7
        [129, 0, 0, 0, 0, 0, 0, 1] 8 (List.replicate 16 0) 16 0 =
      ⟨[⟨8, true, 3, 1001⟩], [⟨3, none, 42, 0, none, true⟩], none⟩ := by
  constructor
  · decide
  · rfl

/-- C7, amended: the header status field of a key-value response is not
inspected. A 24-byte response with I/O status 0 whose header status field is
non-zero, whose completion data names the head record and which arrives after
the record's start timestamp, removes that one record from the in-flight queue
and invokes the completion callback once, with `service_us = now - start_ts`,
`wait_us = 0` and the stored measure flag. -/
theorem memcache_recv_response_status_ignored
    (sock : Nat) (now : Int) (seg1 seg2 : List Nat) (n m : Nat)
    (req : memreq) (rest : List memreq)
    (_hlen1 : seg1.length = n) (_hlen2 : seg2.length = m) (hsize : n + m = 24)
    (_hstatus : memc_header_status (seg1 ++ seg2) ≠ 0)
    (hnow : req.start_ts < now) (hrep : now - req.start_ts < 2 ^ 63) :
    ∃ service_us : Nat,
      memcache.recv_response sock now (req :: rest) sock req.addr seg1 n seg2 m 0 =
        ⟨rest, [⟨req.cb, none, service_us, 0, none, req.measure⟩], none⟩ ∧
      (service_us : Int) = now - req.start_ts := by
  have hmod : (n + m) % U64 = 24 := by rw [hsize]; decide
  refine ⟨_, memcache_recv_response_ok sock now req rest seg1 seg2 n m hmod (by omega), ?_⟩
  rw [toU64_of_pos_lt (by omega) hrep]; omega

/-- A "key not found" header (status 1), split 8 + 16 over the two segments. -/
theorem memcache_recv_response_status_ignored_witness :
    ∃ service_us : Nat,
      memcache.recv_response 1 1042 [⟨7, true, 3, 1000⟩, ⟨8, true, 3, 1001⟩] 1 7
          [129, 0, 0, 0, 0, 0, 0, 1] 8 (List.replicate 16 0) 16 0 =
        ⟨[⟨8, true, 3, 1001⟩], [⟨3, none, service_us, 0, none, true⟩], none⟩ ∧
      (service_us : Int) = 1042 - 1000 :=
  memcache_recv_response_status_ignored 1 1042 [129, 0, 0, 0, 0, 0, 0, 1]
    (List.replicate 16 0) 8 16 ⟨7, true, 3, 1000⟩ [⟨8, true, 3, 1001⟩]
    (by decide) (by decide) (by decide) (by decide) (by decide) (by decide)

/-! ## Service times -/

theorem double_to_u64_of_range {x : Int} (h0 : 0 ≤ x) (h1 : x < 2 ^ 64) :
    double_to_u64 x = some x.toNat := by
  unfold double_to_u64
  rw [if_pos ⟨h0, h1⟩]

/-- The ceiling of a positive double below `2 ^ 64` converts to a `uint64_t`
that is at least 1. -/
theorem double_to_u64_ceil_pos {x : ℚ} (h0 : 0 < x) (h1 : x ≤ 2 ^ 64 - 1) :
    ∃ v : Nat, double_to_u64 ⌈x⌉ = some v ∧ 1 ≤ v ∧ (v : Int) = ⌈x⌉ := by
  have hc : 1 ≤ ⌈x⌉ := Int.one_le_ceil_iff.mpr h0
  have hu : ⌈x⌉ ≤ 2 ^ 64 - 1 := by
    apply Int.ceil_le.mpr
    push_cast
    norm_num at h1 ⊢
    exact h1
  refine ⟨⌈x⌉.toNat, double_to_u64_of_range (by omega) (by omega), by omega, by omega⟩

/-- C8, as stated, fails: the parser stores whatever `sscanf("%lf")` reads, so
a mean of 0 is accepted, and with it the fixed distribution returns 0. -/
theorem gen_service_time_zero_mean :
    synthetic.gen_service_time service_dist.FIXED 0 1 1 = some 0 := by
  simp [synthetic.gen_service_time, double_to_u64]

/-- C8, amended: `synthetic.gen_service_time` returns the ceiling of the double it
selects, the configured mean for the fixed distribution and the draw of the
exponential or log-normal distribution otherwise; whenever that double is
positive (and its ceiling fits `uint64_t`) the value returned is at least 1. In
the fixed case the value is the ceiling of the configured mean. -/
theorem gen_service_time_pos (dist : service_dist)
    (service_us exp_draw lognorm_draw : ℚ)
    (hfixed : dist = service_dist.FIXED → 0 < service_us ∧ service_us ≤ 2 ^ 64 - 1)
    (hexp : dist = service_dist.EXPONENTIAL → 0 < exp_draw ∧ exp_draw ≤ 2 ^ 64 - 1)
    (hlog : dist = service_dist.LOGNORMAL → 0 < lognorm_draw ∧ lognorm_draw ≤ 2 ^ 64 - 1) :
    ∃ v : Nat, synthetic.gen_service_time dist service_us exp_draw lognorm_draw = some v ∧ 1 ≤ v ∧
      (dist = service_dist.FIXED → (v : Int) = ⌈service_us⌉) ∧
      (dist = service_dist.EXPONENTIAL → (v : Int) = ⌈exp_draw⌉) ∧
      (dist = service_dist.LOGNORMAL → (v : Int) = ⌈lognorm_draw⌉) := by
  cases dist with
  | FIXED =>
    obtain ⟨v, hv, h1, hc⟩ := double_to_u64_ceil_pos (hfixed rfl).1 (hfixed rfl).2
    exact ⟨v, by simpa [synthetic.gen_service_time] using hv, h1, fun _ => hc, by simp, by simp⟩
  | EXPONENTIAL =>
    obtain ⟨v, hv, h1, hc⟩ := double_to_u64_ceil_pos (hexp rfl).1 (hexp rfl).2
    exact ⟨v, by simpa [synthetic.gen_service_time] using hv, h1, by simp, fun _ => hc, by simp⟩
  | LOGNORMAL =>
    obtain ⟨v, hv, h1, hc⟩ := double_to_u64_ceil_pos (hlog rfl).1 (hlog rfl).2
    exact ⟨v, by simpa [synthetic.gen_service_time] using hv, h1, by simp, by simp, fun _ => hc⟩

/-- A fixed mean of 2.5 microseconds gives a service time of 3. -/
theorem gen_service_time_pos_witness :
    synthetic.gen_service_time service_dist.FIXED (5 / 2) 0 0 = some 3 := by
  obtain ⟨v, hv, _, hc, _, _⟩ := gen_service_time_pos service_dist.FIXED (5 / 2) 0 0
    (fun _ => ⟨by norm_num, by norm_num⟩) (fun h => by simp at h) (fun h => by simp at h)
  have h3 : ⌈(5 / 2 : ℚ)⌉ = 3 := by
    rw [Int.ceil_eq_iff]; norm_num
  have hv3 : v = 3 := by
    have := hc rfl
    omega
  rw [hv, hv3]

/-! ## Packet copy of the synthetic generator -/

/-- A read that lies behind a stored object sees the memory as it was. -/
theorem read_bytes_store_bytes_behind (mem : Nat → Nat) (addr : Nat) (bs : List Nat)
    (from_addr len : Nat) (h : addr + bs.length ≤ from_addr) :
    read_bytes (store_bytes mem addr bs) from_addr len = read_bytes mem from_addr len := by
  unfold read_bytes store_bytes
  apply List.map_congr_left
  intro i _
  have hlt : ¬ (addr ≤ from_addr + i ∧ from_addr + i < addr + bs.length) := by omega
  simp only [hlt, if_false]

/-- In the fragmented branch of `synthetic::_send_request` the second span is
filled from the memory that lies `n1 * sizeof(req_pkt)` bytes behind the start
of the packet: whatever the packet holds, the second span does not depend on
it. -/
theorem synthetic_send_request_write_second_span (layout : req_pkt → List Nat) (n : Nat)
    (stack : Nat → Nat) (pkt_addr req_addr service_us n1 : Nat)
    (hlayout : ∀ p, (layout p).length = n) (h0 : 0 < n1) (h1 : n1 < n) :
    (synthetic._send_request layout n stack pkt_addr req_addr service_us n1).2 =
      read_bytes stack (pkt_addr + n1 * n) (n - n1) := by
  have hne : n1 ≠ n := by omega
  have hle : n ≤ n1 * n := Nat.le_mul_of_pos_left n h0
  simp only [synthetic._send_request, hne, if_false]
  apply read_bytes_store_bytes_behind
  rw [hlayout]
  omega

/-- C9: evaluation of the fragmented branch. With a 24-byte packet for record
7 and service time 30, split 8 + 16, over a stack filled with `0xAA`, the
second span receives 16 bytes of stack, not packet bytes 8 .. 23, and the two
spans together are not the packet the contiguous branch writes. -/
theorem synthetic_send_request_write_fragmented :
    (synthetic._send_request req_pkt_bytes 24 (fun _ => 170) 4096 7 30 24) =
      (req_pkt_bytes ⟨7, 1, [30]⟩, []) ∧
    (synthetic._send_request req_pkt_bytes 24 (fun _ => 170) 4096 7 30 8).1 =
      (req_pkt_bytes ⟨7, 1, [30]⟩).take 8 ∧
    (synthetic._send_request req_pkt_bytes 24 (fun _ => 170) 4096 7 30 8).2 =
      List.replicate 16 170 ∧
    (synthetic._send_request req_pkt_bytes 24 (fun _ => 170) 4096 7 30 8).2 ≠
      (req_pkt_bytes ⟨7, 1, [30]⟩).drop 8 ∧
    (synthetic._send_request req_pkt_bytes 24 (fun _ => 170) 4096 7 30 8).1 ++
        (synthetic._send_request req_pkt_bytes 24 (fun _ => 170) 4096 7 30 8).2 ≠
      req_pkt_bytes ⟨7, 1, [30]⟩ := by
  refine ⟨by decide, by decide, by decide, by decide, by decide⟩

/-! ## Key selection of the key-value generator -/

theorem write_at_length (buf : List Nat) (off : Nat) (bs : List Nat)
    (h : off + bs.length ≤ buf.length) : (write_at buf off bs).length = buf.length := by
  simp only [write_at, List.length_append, List.length_take, List.length_drop]
  omega

theorem get_header_bytes_length (a b c k : Nat) : (get_header_bytes a b c k).length = 24 := by
  simp [get_header_bytes, htons_bytes, htonl_bytes, le_bytes]

theorem snprintf_bytes_length_le (size : Nat) (text : List Nat) :
    (snprintf_bytes size text).length ≤ size := by
  unfold snprintf_bytes
  split
  · simp
  · simp only [List.length_append, List.length_take, List.length_singleton]
    omega

/-- A request buffer keeps its size when `create_get_req` fills it. -/
theorem create_get_req_length (a b c KEYLEN : Nat) (buf : List Nat) (id : Nat)
    (hbuf : buf.length = MEMC_HEADER_SIZE + KEYLEN) :
    (create_get_req a b c KEYLEN buf id).length = MEMC_HEADER_SIZE + KEYLEN := by
  have hh : ((get_header_bytes a b c KEYLEN).take MEMC_HEADER_SIZE).length = 24 := by
    rw [List.length_take, get_header_bytes_length]; rfl
  have h1 : (write_at buf 0 ((get_header_bytes a b c KEYLEN).take MEMC_HEADER_SIZE)).length =
      buf.length := by
    apply write_at_length
    rw [hh, hbuf]
    unfold MEMC_HEADER_SIZE
    omega
  have hs := snprintf_bytes_length_le KEYLEN (key_text id)
  unfold create_get_req
  simp only []
  rw [write_at_length, h1, hbuf]
  rw [h1, hbuf]
  omega

/-- Entry `j` of `keys_` is the request built for key id `j + 1`. -/
theorem keys_table_getD (a b c KEYLEN KEYS : Nat) (init : Nat → List Nat) (j : Nat)
    (hj : j < KEYS) :
    (keys_table a b c KEYLEN KEYS init).getD j [] =
      create_get_req a b c KEYLEN (init j) (j + 1) := by
  unfold keys_table
  rw [List.getD_eq_getElem?_getD, List.getElem?_map, List.getElem?_range hj]
  rfl

/-- The two spans `memcache::_send_request` fills hold the selected request,
first `n1` bytes and then the rest. -/
theorem take_append_drop_take (key : List Nat) (n n1 : Nat) (hlen : key.length = n)
    (hn1 : n1 ≤ n) :
    key.take n1 ++ (if n ≠ n1 then (key.drop n1).take (n - n1) else []) = key := by
  split
  · have hrest : (key.drop n1).take (n - n1) = key.drop n1 :=
      List.take_of_length_le (by rw [List.length_drop]; omega)
    rw [hrest]
    exact List.take_append_drop n1 key
  · rename_i h
    have : n = n1 := by omega
    subst this
    rw [List.take_of_length_le (by omega)]
    simp

/-- The counter after a run of calls that does not reach its modulus. -/
theorem memcache_send_requests_seqid (CTR KEYS KEYREQ : Nat) (keys : List (List Nat))
    (args : List send_args) :
    ∀ st : memcache_state, st.seqid + args.length < CTR →
      (memcache_send_requests CTR KEYS KEYREQ keys st args).1.seqid =
        st.seqid + args.length := by
  induction args with
  | nil => intro st _; simp [memcache_send_requests]
  | cons a rest ih =>
    intro st h
    simp only [List.length_cons] at h
    simp only [memcache_send_requests, List.length_cons]
    have hstep : (memcache._send_request CTR KEYS KEYREQ keys st a.measure a.cb a.addr
        a.start_ts a.n1).1.seqid = st.seqid + 1 := by
      simp only [memcache._send_request]
      exact Nat.mod_eq_of_lt (by omega)
    rw [ih _ (by rw [hstep]; omega), hstep]
    omega

/-- The indices a run of calls selects, while the counter stays below its
modulus. -/
theorem memcache_send_requests_indices (CTR KEYS KEYREQ : Nat) (keys : List (List Nat))
    (args : List send_args) :
    ∀ st : memcache_state, st.seqid + args.length ≤ CTR →
      (memcache_send_requests CTR KEYS KEYREQ keys st args).2.map sent_key.index =
        (List.range args.length).map fun i => (st.seqid + i) % KEYS := by
  induction args with
  | nil => intro st _; simp [memcache_send_requests]
  | cons a rest ih =>
    intro st h
    simp only [List.length_cons] at h
    cases hrest : rest with
    | nil => simp [memcache_send_requests, memcache._send_request, List.range_succ]
    | cons b rest' =>
      rw [← hrest]
      have hpos : 0 < rest.length := by rw [hrest]; simp
      have hstep : (memcache._send_request CTR KEYS KEYREQ keys st a.measure a.cb a.addr
          a.start_ts a.n1).1.seqid = st.seqid + 1 := by
        simp only [memcache._send_request]
        exact Nat.mod_eq_of_lt (by omega)
      simp only [memcache_send_requests, List.length_cons, List.map_cons]
      rw [ih _ (by rw [hstep]; omega), hstep, List.range_succ_eq_map, List.map_cons,
        List.map_map]
      congr 1
      apply List.map_congr_left
      intro i _
      simp only [Function.comp, memcache._send_request]
      congr 1
      omega

/-- Counting on from `c` modulo `n` for `n` steps visits every residue once. -/
theorem range_shift_mod_perm (n c : Nat) (hn : 0 < n) :
    List.Perm ((List.range n).map fun i => (c + i) % n) (List.range n) := by
  have hnodup : ((List.range n).map fun i => (c + i) % n).Nodup := by
    apply List.Nodup.map_on _ (List.nodup_range n)
    intro i hi j hj hij
    rw [List.mem_range] at hi hj
    have h1 : Nat.ModEq n (c + i) (c + j) := hij
    have h2 : Nat.ModEq n i j := Nat.ModEq.add_left_cancel' c h1
    exact Nat.ModEq.eq_of_lt_of_lt h2 hi hj
  have hsub : ((List.range n).map fun i => (c + i) % n) ⊆ List.range n := by
    intro x hx
    rw [List.mem_map] at hx
    obtain ⟨i, _, rfl⟩ := hx
    exact List.mem_range.mpr (Nat.mod_lt _ hn)
  exact (List.subperm_of_subset hnodup hsub).perm_of_length_le (by simp)

/-- C10: with the counter seeded with `s` at construction, the call of
`memcache::_send_request` that follows `k` earlier calls (with `s + k` below
the counter's modulus) selects index `(s + k) mod KEYS` of `keys_`, copies that
precomputed request to the write spans and increments the counter by one, from
`s + k` to `s + k + 1`; entry `j` of `keys_` is the request built for key id
`j + 1`; and any `KEYS` consecutive calls select every index exactly once. -/
theorem memcache_send_request_key_selection
    (CTR KEYS KEYLEN MEMC_REQUEST MEMC_CMD_GET MEMC_OK : Nat) (init : Nat → List Nat)
    (st0 : memcache_state) (pre window : List send_args) (a : send_args)
    (hKEYS : 0 < KEYS) (hinit : ∀ j, (init j).length = MEMC_HEADER_SIZE + KEYLEN)
    (hn1 : a.n1 ≤ MEMC_HEADER_SIZE + KEYLEN)
    (hctr : st0.seqid + pre.length < CTR)
    (hwin : window.length = KEYS) :
    let keys := keys_table MEMC_REQUEST MEMC_CMD_GET MEMC_OK KEYLEN KEYS init
    let KEYREQ := MEMC_HEADER_SIZE + KEYLEN
    let st := (memcache_send_requests CTR KEYS KEYREQ keys st0 pre).1
    let r := memcache._send_request CTR KEYS KEYREQ keys st a.measure a.cb a.addr a.start_ts a.n1
    st.seqid = st0.seqid + pre.length ∧
    r.2.index = (st0.seqid + pre.length) % KEYS ∧
    r.2.span1 ++ r.2.span2 = keys.getD ((st0.seqid + pre.length) % KEYS) [] ∧
    r.1.seqid = (st0.seqid + pre.length + 1) % CTR ∧
    (st0.seqid + pre.length + 1 < CTR → r.1.seqid = st0.seqid + pre.length + 1) ∧
    (∀ j, j < KEYS → keys.getD j [] =
      create_get_req MEMC_REQUEST MEMC_CMD_GET MEMC_OK KEYLEN (init j) (j + 1)) ∧
    (st0.seqid + pre.length + KEYS ≤ CTR →
      List.Perm ((memcache_send_requests CTR KEYS KEYREQ keys st window).2.map sent_key.index)
        (List.range KEYS) ∧
      ∀ j, j < KEYS →
        ((memcache_send_requests CTR KEYS KEYREQ keys st window).2.map sent_key.index).count j
          = 1) := by
  intro keys KEYREQ st r
  have hst : st.seqid = st0.seqid + pre.length :=
    memcache_send_requests_seqid CTR KEYS KEYREQ keys pre st0 hctr
  have hidx : (st0.seqid + pre.length) % KEYS < KEYS := Nat.mod_lt _ hKEYS
  have hkey : ∀ j, j < KEYS → keys.getD j [] =
      create_get_req MEMC_REQUEST MEMC_CMD_GET MEMC_OK KEYLEN (init j) (j + 1) :=
    fun j hj => keys_table_getD MEMC_REQUEST MEMC_CMD_GET MEMC_OK KEYLEN KEYS init j hj
  have hnext : r.1.seqid = (st0.seqid + pre.length + 1) % CTR := by
    show (st.seqid + 1) % CTR = _
    rw [hst]
  refine ⟨hst, ?_, ?_, hnext, ?_, hkey, ?_⟩
  · show st.seqid % KEYS = _
    rw [hst]
  · show (keys.getD (st.seqid % KEYS) []).take a.n1 ++
      (if KEYREQ ≠ a.n1 then ((keys.getD (st.seqid % KEYS) []).drop a.n1).take (KEYREQ - a.n1)
        else []) = _
    rw [hst]
    apply take_append_drop_take _ _ _ _ hn1
    rw [hkey _ hidx]
    exact create_get_req_length _ _ _ _ _ _ (hinit _)
  · intro hlt
    rw [hnext]
    exact Nat.mod_eq_of_lt hlt
  · intro hctrw
    have hperm : List.Perm
        ((memcache_send_requests CTR KEYS KEYREQ keys st window).2.map sent_key.index)
        (List.range KEYS) := by
      rw [memcache_send_requests_indices CTR KEYS KEYREQ keys window st (by rw [hst]; omega),
        hwin]
      exact range_shift_mod_perm KEYS st.seqid hKEYS
    refine ⟨hperm, ?_⟩
    intro j hj
    rw [hperm.count_eq]
    exact List.count_eq_one_of_mem (List.nodup_range KEYS) (List.mem_range.mpr hj)

/-- Three keys, counter seeded with 5: after two calls the next call selects
index `(5 + 2) mod 3 = 1`, sends the request built for key id 2 and leaves the
counter at 8; the three calls from there select every index once. -/
theorem memcache_send_request_key_selection_witness :
    (memcache._send_request (2 ^ 64) 3 (MEMC_HEADER_SIZE + 30)
        (keys_table 128 0 0 30 3 fun _ => List.replicate 54 0)
        (memcache_send_requests (2 ^ 64) 3 (MEMC_HEADER_SIZE + 30)
          (keys_table 128 0 0 30 3 fun _ => List.replicate 54 0) ⟨[], 5⟩
          [⟨false, 3, 70, 100, 54⟩, ⟨false, 3, 71, 110, 54⟩]).1
        true 3 72 120 20).2.index = (5 + 2) % 3 ∧
    (memcache._send_request (2 ^ 64) 3 (MEMC_HEADER_SIZE + 30)
        (keys_table 128 0 0 30 3 fun _ => List.replicate 54 0)
        (memcache_send_requests (2 ^ 64) 3 (MEMC_HEADER_SIZE + 30)
          (keys_table 128 0 0 30 3 fun _ => List.replicate 54 0) ⟨[], 5⟩
          [⟨false, 3, 70, 100, 54⟩, ⟨false, 3, 71, 110, 54⟩]).1
        true 3 72 120 20).1.seqid = 5 + 2 + 1 ∧
    ∀ j, j < 3 →
      ((memcache_send_requests (2 ^ 64) 3 (MEMC_HEADER_SIZE + 30)
        (keys_table 128 0 0 30 3 fun _ => List.replicate 54 0)
        (memcache_send_requests (2 ^ 64) 3 (MEMC_HEADER_SIZE + 30)
          (keys_table 128 0 0 30 3 fun _ => List.replicate 54 0) ⟨[], 5⟩
          [⟨false, 3, 70, 100, 54⟩, ⟨false, 3, 71, 110, 54⟩]).1
        [⟨true, 3, 72, 120, 20⟩, ⟨true, 3, 73, 130, 54⟩, ⟨true, 3, 74, 140, 1⟩]).2.map
          sent_key.index).count j = 1 :=
  have h := memcache_send_request_key_selection (2 ^ 64) 3 30 128 0 0
    (fun _ => List.replicate 54 0) ⟨[], 5⟩
    [⟨false, 3, 70, 100, 54⟩, ⟨false, 3, 71, 110, 54⟩]
    [⟨true, 3, 72, 120, 20⟩, ⟨true, 3, 73, 130, 54⟩, ⟨true, 3, 74, 140, 1⟩]
    ⟨true, 3, 72, 120, 20⟩ (by decide) (fun _ => rfl) (by decide) (by decide) (by decide)
  ⟨h.2.1, h.2.2.2.2.1 (by decide), (h.2.2.2.2.2.2 (by decide)).2⟩

end Mutated
